import Mathlib

/-!
Shallow embedding of the multi-provider search aggregation and
normalization engine of `src/open_deep_research/utils.py`.

Modeling conventions:
* Python floats are modeled as `ℚ` (every constant appearing in the code,
  0.25, 0.5, 0.9, 1.0, 1.5, 3.0, 5.0, is exactly representable).
* Network interaction is modeled by a per-query outcome supplied as input:
  `Except String δ` stands for "the provider call returned data `δ` or
  raised an exception with message `String`".
* Python `dict` values of a search result are modeled by the structure
  `SearchResult`; a field that may be absent or `None` is an `Option`.
* The constant passthrough fields `follow_up_questions` and `answer`
  (always `None` in every adapter) are omitted from `QueryResponse`.
* `asyncio.sleep` calls are modeled by recording the slept durations in a
  list, in chronological order.
-/

/-- Canonical search result shape produced by every adapter
(`title`/`url`/`content`/`score`/`raw_content`). -/
structure SearchResult where
  title : String
  url : String
  content : String
  score : ℚ
  raw_content : Option String
deriving Repr, DecidableEq

/-- One response per input query: the `query`, its `results`, the `images`
collected from top-level results, and the `error` message set exactly when
the query failed. -/
structure QueryResponse where
  query : String
  results : List SearchResult
  images : List String
  error : Option String
deriving Repr, DecidableEq

/-- Bool-valued test for "needle occurs as a contiguous substring",
modeling Python `needle in haystack` on lists of characters. -/
def containsSeq (needle : List Char) : List Char → Bool
  | [] => needle.isEmpty
  | a :: rest => needle.isPrefixOf (a :: rest) || containsSeq needle rest

/-- Python `needle in haystack` for strings. -/
def strContains (haystack needle : String) : Bool :=
  containsSeq needle.toList haystack.toList

/-- Models Python `enumerate(xs, start=k)` feeding a per-index constructor:
the element at offset `j` is built with index `k + j`. -/
def scoredMap {α β : Type} (f : Nat → α → β) : Nat → List α → List β
  | _, [] => []
  | i, a :: rest => f i a :: scoredMap f (i + 1) rest

/-! ### Config filter (`get_search_params`, utils.py lines 25–53) -/

/-- Accepted-parameter whitelist per search API, verbatim from
`SEARCH_API_PARAMS` in `get_search_params`. -/
def SEARCH_API_PARAMS : List (String × List String) :=
  [("exa", ["max_characters", "num_results", "include_domains",
            "exclude_domains", "subpages"]),
   ("tavily", []),
   ("perplexity", []),
   ("arxiv", ["load_max_docs", "get_full_documents",
              "load_all_available_meta"]),
   ("pubmed", ["top_k_results", "email", "api_key",
               "doc_content_chars_max"])]

/-- `SEARCH_API_PARAMS.get(search_api, [])`: the accepted-key list of a
provider, empty for an unknown provider identifier. -/
def acceptedParams (search_api : String) : List String :=
  ((SEARCH_API_PARAMS.find? (fun p => p.1 == search_api)).map Prod.snd).getD []

/-- The dict comprehension `{k: v for k, v in config.items() if k in
accepted_params}`. -/
def filterConfig {α : Type} (accepted : List String)
    (config : List (String × α)) : List (String × α) :=
  config.filter (fun kv => accepted.contains kv.1)

/-- `get_search_params`: filter a raw configuration mapping down to the
keys accepted by the given search API; an absent (`None`) or empty
configuration yields the empty mapping. -/
def get_search_params {α : Type} (search_api : String)
    (search_api_config : Option (List (String × α))) : List (String × α) :=
  let accepted_params := acceptedParams search_api
  match search_api_config with
  | none => []
  | some config =>
      if config.isEmpty then [] else filterConfig accepted_params config

/-! ### Aggregator/formatter (`deduplicate_and_format_sources`,
utils.py lines 55–101) -/

/-- One assignment `unique_sources[source['url']] = source` into a Python
dict modeled as an ordered association list: an already-present key keeps
its position but takes the new value; a new key is appended. -/
def insertLastWins (acc : List SearchResult) (s : SearchResult) :
    List SearchResult :=
  if s.url ∈ acc.map SearchResult.url then
    acc.map (fun t => if t.url = s.url then s else t)
  else
    acc ++ [s]

/-- The dict comprehension `{source['url']: source for source in
sources_list}` followed by `.values()`. -/
def dedupeByUrl (sources : List SearchResult) : List SearchResult :=
  sources.foldl insertLastWins []

/-- `sources_list.extend(response['results'])` over all responses. -/
def flattenSources (responses : List QueryResponse) : List SearchResult :=
  responses.foldl (fun acc r => acc ++ r.results) []

/-- The raw-content truncation step: at most `max_tokens_per_source * 4`
characters, with the `"... [truncated]"` marker appended exactly when the
content was cut; absent/`None` raw content is treated as `""`. -/
def truncatedRawContent (max_tokens_per_source : Nat)
    (raw : Option String) : String :=
  let char_limit := max_tokens_per_source * 4
  let raw_content := raw.getD ""
  if raw_content.length > char_limit then
    raw_content.take char_limit ++ "... [truncated]"
  else raw_content

/-- The per-source header lines (title, URL, snippet content). -/
def formatSourceHeader (s : SearchResult) : String :=
  "Source " ++ s.title ++ ":\n===\n" ++
  "URL: " ++ s.url ++ "\n===\n" ++
  "Most relevant content from source: " ++ s.content ++ "\n===\n"

/-- One formatted block of `deduplicate_and_format_sources`; the raw
content line is emitted only when `include_raw_content` is set. -/
def formatSource (max_tokens_per_source : Nat) (include_raw_content : Bool)
    (s : SearchResult) : String :=
  formatSourceHeader s ++
    (if include_raw_content then
      "Full source content limited to " ++ toString max_tokens_per_source ++
        " tokens: " ++ truncatedRawContent max_tokens_per_source s.raw_content ++
        "\n\n"
    else "")

/-- `deduplicate_and_format_sources`: flatten all results, deduplicate by
URL with Python-dict semantics, format each surviving source and strip the
final text. -/
def deduplicate_and_format_sources (search_response : List QueryResponse)
    (max_tokens_per_source : Nat) (include_raw_content : Bool) : String :=
  ("Sources:\n\n" ++
    String.join ((dedupeByUrl (flattenSources search_response)).map
      (formatSource max_tokens_per_source include_raw_content))).trim

/-! ### Paced citation-style adapter (`perplexity_search`,
utils.py lines 166–259) -/

/-- The parsed provider payload for one query: the answer text
`data["choices"][0]["message"]["content"]` and the optional
`data["citations"]` list (`none` when the key is absent). -/
structure PerplexityData where
  content : String
  citations : Option (List String)
deriving Repr, DecidableEq

/-- `data.get("citations", ["https://perplexity.ai"])`. -/
def perplexityCitations (d : PerplexityData) : List String :=
  d.citations.getD ["https://perplexity.ai"]

/-- The first citation carries the full answer as `content` and
`raw_content` with score 1.0. -/
def perplexityPrimary (d : PerplexityData) (c0 : String) : SearchResult :=
  { title := "Perplexity Search, Source 1", url := c0, content := d.content,
    score := 1, raw_content := some d.content }

/-- Citation number `i ≥ 2` becomes a placeholder result with generic
content, no raw content, and score 0.5. -/
def perplexityPlaceholder (i : Nat) (c : String) : SearchResult :=
  { title := "Perplexity Search, Source " ++ toString i, url := c,
    content := "See primary source for full content", score := 1/2,
    raw_content := none }

/-- The per-query result construction of `perplexity_search`; indexing
`citations[0]` on an empty present citations list raises. -/
def perplexityResults (d : PerplexityData) : Except String (List SearchResult) :=
  match perplexityCitations d with
  | [] => .error "IndexError: list index out of range"
  | c0 :: rest =>
      .ok (perplexityPrimary d c0 :: scoredMap perplexityPlaceholder 2 rest)

/-- `perplexity_search`: sequential loop with no try/except, so the first
raising query aborts the whole batch. -/
def perplexity_search :
    List (String × Except String PerplexityData) →
      Except String (List QueryResponse)
  | [] => .ok []
  | (q, o) :: rest =>
      match o with
      | .error e => .error e
      | .ok d =>
          match perplexityResults d with
          | .error e => .error e
          | .ok rs =>
              match perplexity_search rest with
              | .error e => .error e
              | .ok tail => .ok ({ query := q, results := rs, images := [],
                                   error := none } :: tail)

/-! ### Concurrent-then-paced Exa adapter (`exa_search`,
utils.py lines 261–462) -/

/-- A subpage entry of an Exa result (`get_value` defaults applied:
absent fields are `none`). -/
structure ExaSub where
  title : Option String
  url : Option String
  score : Option ℚ
  text : Option String
  summary : Option String
deriving Repr, DecidableEq

/-- One main entry of the Exa `SearchResponse.results` list. -/
structure ExaItem where
  title : Option String
  url : Option String
  score : Option ℚ
  text : Option String
  summary : Option String
  subpages : Option (List ExaSub)
  image : Option String
deriving Repr, DecidableEq

/-- Combine summary and text: `f"{summary}\n\n{text}"` when both are
non-empty, otherwise whichever is non-empty. -/
def combineContent (text summary : String) : String :=
  if summary = "" then text
  else if text = "" then summary
  else summary ++ "\n\n" ++ text

/-- Map a main Exa result onto the canonical shape. -/
def exaEntryOf (r : ExaItem) : SearchResult :=
  { title := r.title.getD "", url := r.url.getD "",
    content := combineContent (r.text.getD "") (r.summary.getD ""),
    score := r.score.getD 0, raw_content := some (r.text.getD "") }

/-- Map an Exa subpage onto the canonical shape. -/
def exaSubEntryOf (sp : ExaSub) : SearchResult :=
  { title := sp.title.getD "", url := sp.url.getD "",
    content := combineContent (sp.text.getD "") (sp.summary.getD ""),
    score := sp.score.getD 0, raw_content := some (sp.text.getD "") }

/-- First pass of `process_query`: main results in order, skipping URLs
already in `seen_urls`; returns the updated seen set with the entries. -/
def exaMainPass : List String → List ExaItem →
    List String × List SearchResult
  | seen, [] => (seen, [])
  | seen, r :: rest =>
      let url := r.url.getD ""
      if url ∈ seen then exaMainPass seen rest
      else
        let out := exaMainPass (seen ++ [url]) rest
        (out.1, exaEntryOf r :: out.2)

/-- Inner loop of the subpage pass over one result's subpages. -/
def exaSubPass : List String → List ExaSub →
    List String × List SearchResult
  | seen, [] => (seen, [])
  | seen, sp :: rest =>
      let url := sp.url.getD ""
      if url ∈ seen then exaSubPass seen rest
      else
        let out := exaSubPass (seen ++ [url]) rest
        (out.1, exaSubEntryOf sp :: out.2)

/-- Second pass of `process_query`: subpages of every main result, still
deduplicated against `seen_urls`. -/
def exaSubpagesPass : List String → List ExaItem →
    List String × List SearchResult
  | seen, [] => (seen, [])
  | seen, r :: rest =>
      let out1 := exaSubPass seen (r.subpages.getD [])
      let out2 := exaSubpagesPass out1.1 rest
      (out2.1, out1.2 ++ out2.2)

/-- Image collection: only from top-level results, duplicates skipped. -/
def exaImages : List String → List ExaItem → List String
  | imgs, [] => imgs
  | imgs, r :: rest =>
      let im := r.image.getD ""
      if im ≠ "" ∧ im ∉ imgs then exaImages (imgs ++ [im]) rest
      else exaImages imgs rest

/-- `process_query` of `exa_search` on parsed response data: the subpage
pass runs only when the `subpages` parameter was provided. -/
def exaProcessQuery (subpagesEnabled : Bool) (query : String)
    (items : List ExaItem) : QueryResponse :=
  let main := exaMainPass [] items
  { query := query,
    results :=
      if subpagesEnabled then main.2 ++ (exaSubpagesPass main.1 items).2
      else main.2,
    images := exaImages [] items,
    error := none }

/-- The response produced for one (query, outcome) pair by the `exa_search`
loop: a formatted result on success, an empty-results error response when
the query raised. -/
def exaRespOf (subpagesEnabled : Bool)
    (p : String × Except String (List ExaItem)) : QueryResponse :=
  match p.2 with
  | .ok items => exaProcessQuery subpagesEnabled p.1 items
  | .error e => { query := p.1, results := [], images := [], error := some e }

/-- The sequential `exa_search` loop. Returns the responses together with
the chronological list of slept durations: 0.25s pacing before every query
but the first, plus an extra 1.0s after a failure whose message contains
"429". -/
def exaGo (subpagesEnabled : Bool) :
    Bool → List (String × Except String (List ExaItem)) →
      List QueryResponse × List ℚ
  | _, [] => ([], [])
  | first, (q, o) :: rest =>
      let pre : List ℚ := if first then [] else [1/4]
      let out := exaGo subpagesEnabled false rest
      match o with
      | .ok items =>
          (exaProcessQuery subpagesEnabled q items :: out.1, pre ++ out.2)
      | .error e =>
          ({ query := q, results := [], images := [], error := some e } :: out.1,
           pre ++ (if strContains e "429" then [(1 : ℚ)] else []) ++ out.2)

/-- `exa_search`: the include/exclude mutual-exclusivity check raises
before any per-query work; otherwise the loop runs on every query. Python
truthiness makes `None` and `[]` domain lists equivalent, so domain lists
are plain lists here. -/
def exa_search (include_domains exclude_domains : List String)
    (subpagesEnabled : Bool)
    (ps : List (String × Except String (List ExaItem))) :
    Except String (List QueryResponse) :=
  if include_domains ≠ [] ∧ exclude_domains ≠ [] then
    .error "Cannot specify both include_domains and exclude_domains"
  else .ok (exaGo subpagesEnabled true ps).1

/-! ### Synthetic descending scores (shared by the arXiv and PubMed
adapters): `base_score - i * score_decrement` with
`score_decrement = 1.0 / (len(docs) + 1)` for non-empty `docs`. -/

/-- Score of the document at rank `i` among `n` returned documents. -/
def syntheticScore (n i : Nat) : ℚ :=
  1 - (i : ℚ) * (1 / ((n : ℚ) + 1))

/-- `1.0 / (len(docs) + 1) if docs else 0`. -/
def scoreDecrementOf (n : Nat) (isEmpty : Bool) : ℚ :=
  if isEmpty then 0 else 1 / ((n : ℚ) + 1)

/-! ### Academic metadata adapter (`arxiv_search_async`,
utils.py lines 464–619) -/

/-- Metadata of one retrieved arXiv document. A field the code tests with
`'key' in metadata` is `Option`; `published` is the stringified
publication date (the empty string behaves as absent, matching the code's
`if published_str:` truthiness test); `page_content` is the full text. -/
structure ArxivDoc where
  entry_id : Option String
  summary : Option String
  authors : Option String
  published : Option String
  primary_category : Option String
  categories : Option (List String)
  comment : Option String
  journal_ref : Option String
  doi : Option String
  links : Option (List String)
  title : Option String
  page_content : String
deriving Repr, DecidableEq

/-- A labeled part included only when the optional value is present and
truthy (non-empty), as in `if 'comment' in metadata and
metadata['comment']`. -/
def optTruthyPart (label : String) (v : Option String) : List String :=
  let s := v.getD ""
  if s = "" then [] else [label ++ s]

/-- The `content_parts` list of `arxiv_search_async.process_single_query`,
in the code's fixed field order. -/
def arxivContentParts (m : ArxivDoc) : List String :=
  (match m.summary with
   | some s => ["Summary: " ++ s]
   | none => []) ++
  (match m.authors with
   | some a => ["Authors: " ++ a]
   | none => []) ++
  optTruthyPart "Published: " m.published ++
  (match m.primary_category with
   | some c => ["Primary Category: " ++ c]
   | none => []) ++
  (match m.categories with
   | some cs =>
       if cs.isEmpty then [] else ["Categories: " ++ String.intercalate ", " cs]
   | none => []) ++
  optTruthyPart "Comment: " m.comment ++
  optTruthyPart "Journal Reference: " m.journal_ref ++
  optTruthyPart "DOI: " m.doi ++
  (match (m.links.getD []).find? (fun l => strContains l "pdf") with
   | some l => ["PDF: " ++ l]
   | none => [])

/-- The canonical result built for the arXiv document at rank `i`. -/
def arxivResultOf (get_full_documents : Bool) (dec : ℚ) (i : Nat)
    (m : ArxivDoc) : SearchResult :=
  { title := m.title.getD "",
    url := m.entry_id.getD "",
    content := String.intercalate "\n" (arxivContentParts m),
    score := 1 - (i : ℚ) * dec,
    raw_content := if get_full_documents then some m.page_content else none }

/-- The results list of one successful arXiv query. -/
def arxivResults (docs : List ArxivDoc) (get_full_documents : Bool) :
    List SearchResult :=
  scoredMap
    (arxivResultOf get_full_documents
      (scoreDecrementOf docs.length docs.isEmpty)) 0 docs

/-- `arxiv_search_async.process_single_query`: every exception is caught
inside and becomes an empty-results response carrying the error. -/
def arxivProcessSingleQuery (get_full_documents : Bool) (query : String)
    (o : Except String (List ArxivDoc)) : QueryResponse :=
  match o with
  | .ok docs => { query := query, results := arxivResults docs get_full_documents,
                  images := [], error := none }
  | .error e => { query := query, results := [], images := [], error := some e }

/-- The `arxiv_search_async` loop: one response per query, in order. The
fixed 3.0s pacing and the outer rate-limit pause affect timing only, never
the response list, and are not tracked here. -/
def arxiv_search_async (get_full_documents : Bool)
    (ps : List (String × Except String (List ArxivDoc))) :
    List QueryResponse :=
  ps.map (fun p => arxivProcessSingleQuery get_full_documents p.1 p.2)

/-! ### Biomedical metadata adapter (`pubmed_search_async`,
utils.py lines 621–767) -/

/-- One record from the PubMed wrapper; fields are read with `doc.get` and
truthiness tests. -/
structure PubmedDoc where
  published : Option String
  copyright_info : Option String
  summary : Option String
  uid : Option String
  title : Option String
deriving Repr, DecidableEq

/-- `content_parts` of `pubmed_search_async.process_single_query`
(publication date, copyright notice, summary, in that order, present and
truthy fields only). -/
def pubmedContentParts (d : PubmedDoc) : List String :=
  optTruthyPart "Published: " d.published ++
  optTruthyPart "Copyright Information: " d.copyright_info ++
  optTruthyPart "Summary: " d.summary

/-- The canonical result built for the PubMed record at rank `i`:
the URL is derived from the record's `uid` (absent uid gives ""). -/
def pubmedResultOf (dec : ℚ) (i : Nat) (d : PubmedDoc) : SearchResult :=
  { title := d.title.getD "",
    url :=
      (let uid := d.uid.getD ""
       if uid = "" then "" else "https://pubmed.ncbi.nlm.nih.gov/" ++ uid ++ "/"),
    content := String.intercalate "\n" (pubmedContentParts d),
    score := 1 - (i : ℚ) * dec,
    raw_content := some (d.summary.getD "") }

/-- The results list of one successful PubMed query. -/
def pubmedResults (docs : List PubmedDoc) : List SearchResult :=
  scoredMap (pubmedResultOf (scoreDecrementOf docs.length docs.isEmpty)) 0 docs

/-- Outcome of one iteration of the `pubmed_search_async` loop:
`docs` — the wrapper call succeeded; `innerExc` — an exception was raised
and caught by the blanket handler inside `process_single_query`;
`outerExc` — an exception escaped `process_single_query` itself (only
possible outside the wrapper call, e.g. cancellation of the pacing sleep)
and was caught by the loop's own handler. -/
inductive PubmedOutcome where
  | docs : List PubmedDoc → PubmedOutcome
  | innerExc : String → PubmedOutcome
  | outerExc : String → PubmedOutcome
deriving Repr, DecidableEq

/-- The response appended for one query: `process_single_query`'s result
on `docs`/`innerExc`, the loop handler's placeholder on `outerExc` (both
error shapes are identical dicts). -/
def pubmedProcessSingleQuery (query : String) :
    PubmedOutcome → QueryResponse
  | .docs ds => { query := query, results := pubmedResults ds, images := [],
                  error := none }
  | .innerExc e => { query := query, results := [], images := [],
                     error := some e }
  | .outerExc e => { query := query, results := [], images := [],
                     error := some e }

/-- The adaptive delay update after one iteration: multiply by 0.9 (floor
0.5) when the appended response has at least one result; multiply by 1.5
(ceiling 5.0) only in the loop's own except block, i.e. on `outerExc`; an
exception handled inside `process_single_query` leaves the delay
unchanged, as does a success with zero results. -/
def pubmedDelayStep (delay : ℚ) : PubmedOutcome → ℚ
  | .docs ds => if (pubmedResults ds).isEmpty then delay
                else max (1/2) (delay * (9/10))
  | .innerExc _ => delay
  | .outerExc _ => min 5 (delay * (3/2))

/-- The `pubmed_search_async` loop, threading the adaptive delay; returns
the responses (one per query, in order) and the final delay value. -/
def pubmedGo (delay : ℚ) :
    List (String × PubmedOutcome) → List QueryResponse × ℚ
  | [] => ([], delay)
  | (q, o) :: rest =>
      let out := pubmedGo (pubmedDelayStep delay o) rest
      (pubmedProcessSingleQuery q o :: out.1, out.2)

/-- `pubmed_search_async`: the delay starts at 1.0s. -/
def pubmed_search_async (ps : List (String × PubmedOutcome)) :
    List QueryResponse :=
  (pubmedGo 1 ps).1

/-- The value of the adaptive delay after the whole batch. -/
def pubmedDelayAfter (ps : List (String × PubmedOutcome)) : ℚ :=
  (pubmedGo 1 ps).2

/-! ### Auxiliary definitions for concrete evaluations -/

/-- Predicate on an outcome: a failure whose message contains "429"
(`if "429" in str(e)` in `exa_search`). -/
def exaIsRateLimit : Except String (List ExaItem) → Bool
  | .error e => strContains e "429"
  | .ok _ => false

/-- A concrete source entry (first occurrence of the shared URL). -/
def c1SourceA : SearchResult :=
  { title := "Title A", url := "https://example.com/page",
    content := "Content A", score := 1, raw_content := some "Raw A" }

/-- A concrete source entry with the same URL but different content. -/
def c1SourceB : SearchResult :=
  { title := "Title B", url := "https://example.com/page",
    content := "Content B", score := 1, raw_content := some "Raw B" }

/-- A concrete PubMed record used in evaluations. -/
def pubmedSampleDoc : PubmedDoc :=
  { published := some "2024-01-01", copyright_info := none,
    summary := some "Sample abstract", uid := some "12345",
    title := some "Sample title" }

/-- A concrete arXiv document used in evaluations. -/
def arxivSampleDoc : ArxivDoc :=
  { entry_id := some "http://arxiv.org/abs/2401.00001v1",
    summary := some "Sample summary", authors := some "A. Author",
    published := some "2024-01-01", primary_category := some "cs.AI",
    categories := some ["cs.AI"], comment := none, journal_ref := none,
    doi := none, links := some ["http://arxiv.org/pdf/2401.00001v1"],
    title := some "Sample paper", page_content := "Full text" }

/-! ### Shared list lemmas -/

theorem scoredMap_length {α β : Type} (f : Nat → α → β) :
    ∀ (k : Nat) (l : List α), (scoredMap f k l).length = l.length
  | _, [] => rfl
  | k, _ :: rest => by simp [scoredMap, scoredMap_length f (k + 1) rest]

theorem scoredMap_get? {α β : Type} (f : Nat → α → β) :
    ∀ (k j : Nat) (l : List α),
      (scoredMap f k l).get? j = (l.get? j).map (f (k + j))
  | _, _, [] => by simp [scoredMap]
  | _, 0, _ :: _ => by simp [scoredMap]
  | k, j + 1, a :: rest => by
    have ih := scoredMap_get? f (k + 1) j rest
    simp only [scoredMap, List.get?]
    rw [ih]
    have hkj : k + 1 + j = k + (j + 1) := by omega
    rw [hkj]

/-! ### Claim C7: the config filter -/

theorem acceptedParams_of_unknown (api : String)
    (h : (SEARCH_API_PARAMS.map Prod.fst).contains api = false) :
    acceptedParams api = [] := by
  have hmem : api ∉ SEARCH_API_PARAMS.map Prod.fst := by
    intro hm
    have : (SEARCH_API_PARAMS.map Prod.fst).contains api = true :=
      List.elem_iff.mpr hm
    rw [this] at h
    exact absurd h (by simp)
  have hfind : SEARCH_API_PARAMS.find? (fun p => p.1 == api) = none := by
    rw [List.find?_eq_none]
    intro x hx hbeq
    exact hmem (List.mem_map.mpr ⟨x, hx, by rwa [beq_iff_eq] at hbeq⟩)
  simp [acceptedParams, hfind]

/-- C7: `get_search_params` is pure and total (it is a Lean function); an
absent configuration yields the empty mapping; otherwise the result is
exactly the subset of entries whose key is in the provider's accepted-key
list; an unknown provider identifier yields the empty mapping; and with
accepted keys `["a","b"]` and input `{"a":1,"c":2}` the filtered config is
exactly `{"a":1}`. -/
theorem get_search_params_filters (api : String) (cfg : List (String × Int)) :
    get_search_params api (none : Option (List (String × Int))) = []
    ∧ get_search_params api (some cfg)
        = cfg.filter (fun kv => (acceptedParams api).contains kv.1)
    ∧ ((SEARCH_API_PARAMS.map Prod.fst).contains api = false →
        get_search_params api (some cfg) = [])
    ∧ filterConfig ["a", "b"] [("a", (1 : Int)), ("c", 2)] = [("a", 1)] := by
  refine ⟨rfl, ?_, ?_, ?_⟩
  · cases cfg with
    | nil => simp [get_search_params]
    | cons kv rest => simp [get_search_params, filterConfig]
  · intro h
    cases cfg with
    | nil => simp [get_search_params]
    | cons kv rest =>
      simp [get_search_params, filterConfig, acceptedParams_of_unknown api h,
        List.filter_eq_nil_iff]
  · rfl

theorem get_search_params_filters_witness :
    get_search_params "mystery" (some [("a", (1 : Int))]) = [] :=
  (get_search_params_filters "mystery" [("a", (1 : Int))]).2.2.1 (by decide)

/-! ### Claim C3: the raw-content truncation law -/

/-- C3: with raw-content inclusion enabled, a present raw content longer
than `max_tokens_per_source * 4` characters is rendered as exactly its
first `max_tokens_per_source * 4` characters followed by the marker
`"... [truncated]"`; a raw content that fits is rendered in full with no
marker; an absent raw content contributes the empty string and no
marker. -/
theorem formatSource_truncation (s : SearchResult) (m : Nat) :
    (∀ rc, s.raw_content = some rc → rc.length > m * 4 →
      formatSource m true s
        = formatSourceHeader s ++ "Full source content limited to " ++
            toString m ++ " tokens: " ++ (rc.take (m * 4) ++ "... [truncated]")
            ++ "\n\n")
    ∧ (∀ rc, s.raw_content = some rc → ¬ rc.length > m * 4 →
      formatSource m true s
        = formatSourceHeader s ++ "Full source content limited to " ++
            toString m ++ " tokens: " ++ rc ++ "\n\n")
    ∧ (s.raw_content = none →
      truncatedRawContent m s.raw_content = ""
      ∧ formatSource m true s
          = formatSourceHeader s ++ "Full source content limited to " ++
              toString m ++ " tokens: " ++ "\n\n") := by
  refine ⟨?_, ?_, ?_⟩
  · intro rc h hlen
    simp [formatSource, truncatedRawContent, h, hlen, String.append_assoc]
  · intro rc h hlen
    simp [formatSource, truncatedRawContent, h, hlen, String.append_assoc]
  · intro h
    refine ⟨by simp [truncatedRawContent, h], ?_⟩
    simp [formatSource, truncatedRawContent, h, String.append_assoc,
      String.append_empty]

theorem formatSource_truncation_witness :
    formatSource 1 true
        { title := "T", url := "u", content := "c", score := 1,
          raw_content := some "abcdefgh" }
      = formatSourceHeader
          { title := "T", url := "u", content := "c", score := 1,
            raw_content := some "abcdefgh" } ++
          "Full source content limited to " ++ toString 1 ++ " tokens: " ++
          (("abcdefgh" : String).take 4 ++ "... [truncated]") ++ "\n\n" :=
  (formatSource_truncation
      { title := "T", url := "u", content := "c", score := 1,
        raw_content := some "abcdefgh" } 1).1 "abcdefgh" rfl (by decide)

/-! ### Claim C9: exa include/exclude mutual exclusivity fails fast -/

/-- C9: whenever both domain filters are truthy (non-empty), `exa_search`
returns the `ValueError` immediately, for every query list and every
possible provider behaviour — no per-query work is reflected in the
result, so no partial results can be produced. -/
theorem exa_search_domains_mutually_exclusive
    (include_domains exclude_domains : List String) (sub : Bool)
    (ps : List (String × Except String (List ExaItem)))
    (h1 : include_domains ≠ []) (h2 : exclude_domains ≠ []) :
    exa_search include_domains exclude_domains sub ps
      = .error "Cannot specify both include_domains and exclude_domains" := by
  simp [exa_search, h1, h2]

theorem exa_search_domains_mutually_exclusive_witness :
    exa_search ["a.com"] ["b.com"] false
        [("q", Except.ok [])]
      = .error "Cannot specify both include_domains and exclude_domains" :=
  exa_search_domains_mutually_exclusive ["a.com"] ["b.com"] false
    [("q", Except.ok [])] (by simp) (by simp)

/-! ### Claim C10: a successful Perplexity response is never empty -/

/-- C10: when the provider response carries no citations list, the default
citation URL `https://perplexity.ai` is substituted and becomes the single
score-1.0 result; and every successfully built result list is
non-empty. -/
theorem perplexityResults_never_empty (d : PerplexityData) :
    (d.citations = none →
      perplexityResults d
        = .ok [perplexityPrimary d "https://perplexity.ai"])
    ∧ (∀ rs, perplexityResults d = .ok rs → rs ≠ []) := by
  constructor
  · intro h
    simp [perplexityResults, perplexityCitations, h, scoredMap]
  · intro rs h
    cases hc : perplexityCitations d with
    | nil => simp [perplexityResults, hc] at h
    | cons c0 rest =>
      simp [perplexityResults, hc] at h
      simp [← h]

theorem perplexityResults_never_empty_witness :
    perplexityResults { content := "ans", citations := none }
      = .ok [perplexityPrimary { content := "ans", citations := none }
              "https://perplexity.ai"] :=
  (perplexityResults_never_empty { content := "ans", citations := none }).1 rfl

/-! ### Claim C8: Perplexity citation-to-result mapping -/

/-- C8: for a successfully processed query, the first citation becomes a
result whose `content` and `raw_content` are both the full answer with
score 1.0, and the citation at offset `j` of the remainder becomes the
placeholder result numbered `j + 2` with generic content, absent
`raw_content` and score 0.5. -/
theorem perplexity_citation_mapping (d : PerplexityData) (c0 : String)
    (cs : List String) (h : perplexityCitations d = c0 :: cs) :
    perplexityResults d
      = .ok (perplexityPrimary d c0 :: scoredMap perplexityPlaceholder 2 cs)
    ∧ perplexityPrimary d c0
        = { title := "Perplexity Search, Source 1", url := c0,
            content := d.content, score := 1, raw_content := some d.content }
    ∧ (∀ j c, cs.get? j = some c →
        (scoredMap perplexityPlaceholder 2 cs).get? j
          = some { title := "Perplexity Search, Source " ++ toString (j + 2),
                   url := c,
                   content := "See primary source for full content",
                   score := 1/2, raw_content := none }) := by
  refine ⟨by simp [perplexityResults, h], rfl, ?_⟩
  intro j c hj
  rw [scoredMap_get? perplexityPlaceholder 2 j cs, hj]
  simp [perplexityPlaceholder, Nat.add_comm]

theorem perplexity_citation_mapping_witness :
    perplexityResults { content := "ans", citations := some ["u1", "u2"] }
      = .ok (perplexityPrimary
               { content := "ans", citations := some ["u1", "u2"] } "u1"
             :: scoredMap perplexityPlaceholder 2 ["u2"]) :=
  (perplexity_citation_mapping
      { content := "ans", citations := some ["u1", "u2"] } "u1" ["u2"] rfl).1

/-! ### Loop shape lemmas for the sequential adapters -/

theorem exaGo_fst (sub : Bool) :
    ∀ (first : Bool) (ps : List (String × Except String (List ExaItem))),
      (exaGo sub first ps).1 = ps.map (exaRespOf sub)
  | _, [] => rfl
  | first, (q, o) :: rest => by
    have ih := exaGo_fst sub false rest
    cases o <;> simp [exaGo, exaRespOf, ih]

theorem pubmedGo_fst :
    ∀ (d : ℚ) (ps : List (String × PubmedOutcome)),
      (pubmedGo d ps).1 = ps.map (fun p => pubmedProcessSingleQuery p.1 p.2)
  | _, [] => rfl
  | d, (q, o) :: rest => by
    have ih := pubmedGo_fst (pubmedDelayStep d o) rest
    simp [pubmedGo, ih]

/-! ### Claim C2: the positional invariant of the sequential adapters -/

/-- C2: each sequential adapter (exa, arXiv, PubMed) returns exactly one
response per input query, in input order; the response at index `i` has
its `query` field equal to the input query at index `i`; and a failed
query yields, at its own index, a response with empty results and the
error message — nothing is dropped or reordered. -/
theorem adapters_positional_invariant (sub getFull : Bool)
    (eps : List (String × Except String (List ExaItem)))
    (aps : List (String × Except String (List ArxivDoc)))
    (pps : List (String × PubmedOutcome)) :
    ((exaGo sub true eps).1.length = eps.length
      ∧ ∀ i q o, eps.get? i = some (q, o) →
          ∃ r, (exaGo sub true eps).1.get? i = some r ∧ r.query = q
            ∧ ∀ e, o = .error e →
                r = { query := q, results := [], images := [], error := some e })
    ∧ ((arxiv_search_async getFull aps).length = aps.length
      ∧ ∀ i q o, aps.get? i = some (q, o) →
          ∃ r, (arxiv_search_async getFull aps).get? i = some r ∧ r.query = q
            ∧ ∀ e, o = .error e →
                r = { query := q, results := [], images := [], error := some e })
    ∧ ((pubmed_search_async pps).length = pps.length
      ∧ ∀ i q o, pps.get? i = some (q, o) →
          ∃ r, (pubmed_search_async pps).get? i = some r ∧ r.query = q
            ∧ ∀ e, (o = .innerExc e ∨ o = .outerExc e) →
                r = { query := q, results := [], images := [], error := some e }) := by
  refine ⟨⟨?_, ?_⟩, ⟨?_, ?_⟩, ⟨?_, ?_⟩⟩
  · rw [exaGo_fst sub true eps]; exact List.length_map eps (exaRespOf sub)
  · intro i q o h
    refine ⟨exaRespOf sub (q, o), ?_, ?_, ?_⟩
    · rw [exaGo_fst sub true eps, List.get?_map, h]; rfl
    · cases o <;> rfl
    · intro e he; cases he; rfl
  · exact List.length_map aps _
  · intro i q o h
    refine ⟨arxivProcessSingleQuery getFull q o, ?_, ?_, ?_⟩
    · rw [arxiv_search_async, List.get?_map, h]; rfl
    · cases o <;> rfl
    · intro e he; cases he; rfl
  · rw [pubmed_search_async, pubmedGo_fst]; exact List.length_map pps _
  · intro i q o h
    refine ⟨pubmedProcessSingleQuery q o, ?_, ?_, ?_⟩
    · rw [pubmed_search_async, pubmedGo_fst, List.get?_map, h]; rfl
    · cases o <;> rfl
    · intro e he
      rcases he with he | he <;> (cases he; rfl)

theorem adapters_positional_invariant_witness :
    ∃ r, (pubmed_search_async [("q", PubmedOutcome.innerExc "boom")]).get? 0
        = some r
      ∧ r.query = "q"
      ∧ ∀ e, (PubmedOutcome.innerExc "boom" = PubmedOutcome.innerExc e
              ∨ PubmedOutcome.innerExc "boom" = PubmedOutcome.outerExc e) →
          r = { query := "q", results := [], images := [], error := some e } :=
  (adapters_positional_invariant false false [] []
      [("q", PubmedOutcome.innerExc "boom")]).2.2.2 0 "q"
    (PubmedOutcome.innerExc "boom") rfl

/-! ### Claim C5: failure isolation in the paced web-search adapters -/

/-- C5 counterexample: `perplexity_search` — the citation-style paced
adapter the spec section describes — has no per-query error handling: a
failing first query aborts the whole batch with the raised error instead
of yielding an empty-results response and continuing with the second
query. -/
theorem perplexity_search_no_isolation :
    perplexity_search
        [("q1", Except.error "HTTP Error 429: Too Many Requests"),
         ("q2", Except.ok { content := "answer",
                            citations := some ["https://example.com"] })]
      = Except.error "HTTP Error 429: Too Many Requests"
    ∧ perplexity_search
        [("q1", Except.error "HTTP Error 429: Too Many Requests"),
         ("q2", Except.ok { content := "answer",
                            citations := some ["https://example.com"] })]
      ≠ Except.ok
          [{ query := "q1", results := [], images := [],
             error := some "HTTP Error 429: Too Many Requests" },
           { query := "q2",
             results := [perplexityPrimary
               { content := "answer", citations := some ["https://example.com"] }
               "https://example.com"],
             images := [], error := none }] := by
  exact ⟨rfl, by simp [perplexity_search]⟩

theorem count_rat_singleton_ne (a b : ℚ) (h : a ≠ b) : [a].count b = 0 := by
  simp [List.count_cons, beq_iff_eq, h]

theorem exaGo_sleeps_count_quarter (sub : Bool) :
    ∀ (ps : List (String × Except String (List ExaItem))),
      (exaGo sub false ps).2.count ((1 : ℚ)/4) = ps.length
  | [] => rfl
  | (q, o) :: rest => by
    have ih := exaGo_sleeps_count_quarter sub rest
    cases o with
    | ok items =>
      show (([(1 : ℚ)/4] ++ (exaGo sub false rest).2).count ((1 : ℚ)/4))
        = rest.length + 1
      rw [List.count_append, ih]
      simp
      omega
    | error e =>
      show ((([(1 : ℚ)/4] ++ (if strContains e "429" then [(1 : ℚ)] else []))
              ++ (exaGo sub false rest).2).count ((1 : ℚ)/4)) = rest.length + 1
      rw [List.count_append, List.count_append, ih]
      by_cases h : strContains e "429" = true
      · rw [if_pos h, count_rat_singleton_ne 1 (1/4) (by norm_num)]
        simp
        omega
      · rw [if_neg h, List.count_nil]
        simp
        omega

theorem exaGo_pre_count_one (b : Bool) :
    (if b then ([] : List ℚ) else [(1 : ℚ)/4]).count (1 : ℚ) = 0 := by
  cases b
  · rw [if_neg (by simp), count_rat_singleton_ne (1/4) 1 (by norm_num)]
  · rw [if_pos rfl, List.count_nil]

theorem exaGo_sleeps_count_one (sub : Bool) :
    ∀ (first : Bool) (ps : List (String × Except String (List ExaItem))),
      (exaGo sub first ps).2.count (1 : ℚ)
        = ps.countP (fun p => exaIsRateLimit p.2)
  | _, [] => rfl
  | first, (q, o) :: rest => by
    have ih := exaGo_sleeps_count_one sub false rest
    cases o with
    | ok items =>
      show (((if first then ([] : List ℚ) else [(1 : ℚ)/4])
              ++ (exaGo sub false rest).2).count (1 : ℚ))
        = ((q, Except.ok items) :: rest).countP (fun p => exaIsRateLimit p.2)
      rw [List.count_append, exaGo_pre_count_one first, ih, List.countP_cons]
      simp [exaIsRateLimit]
    | error e =>
      show ((((if first then ([] : List ℚ) else [(1 : ℚ)/4])
               ++ (if strContains e "429" then [(1 : ℚ)] else []))
              ++ (exaGo sub false rest).2).count (1 : ℚ))
        = ((q, Except.error e) :: rest).countP (fun p => exaIsRateLimit p.2)
      rw [List.count_append, List.count_append, exaGo_pre_count_one first, ih,
        List.countP_cons]
      by_cases h : strContains e "429" = true
      · rw [if_pos h, List.count_singleton]
        simp [exaIsRateLimit, h]
        omega
      · rw [if_neg h, List.count_nil]
        simp [exaIsRateLimit, h]

/-- C5 (amended): in `exa_search`'s sequential loop a single query's
failure is caught and produces, at its own index, a response with empty
results and the error message while every other query is processed
normally at its own index (no drops, no reordering); the 0.25s pacing
sleep occurs before every query but the first; a failure whose message
contains "429" triggers exactly one extra fixed 1.0s pause, which happens
immediately, before the next query's pacing sleep. -/
theorem exa_failure_isolation (sub : Bool)
    (ps : List (String × Except String (List ExaItem))) :
    ((exaGo sub true ps).1.length = ps.length)
    ∧ (∀ i q e, ps.get? i = some (q, .error e) →
        (exaGo sub true ps).1.get? i
          = some { query := q, results := [], images := [], error := some e })
    ∧ (∀ i q d, ps.get? i = some (q, .ok d) →
        (exaGo sub true ps).1.get? i = some (exaProcessQuery sub q d))
    ∧ ((exaGo sub true ps).2.count ((1 : ℚ)/4) = ps.length - 1)
    ∧ ((exaGo sub true ps).2.count (1 : ℚ)
        = ps.countP (fun p => exaIsRateLimit p.2))
    ∧ (∀ q e rest, strContains e "429" = true →
        (exaGo sub true ((q, Except.error e) :: rest)).2
          = 1 :: (exaGo sub false rest).2) := by
  refine ⟨?_, ?_, ?_, ?_, ?_, ?_⟩
  · rw [exaGo_fst sub true ps]; exact List.length_map ps (exaRespOf sub)
  · intro i q e h
    rw [exaGo_fst sub true ps, List.get?_map, h]; rfl
  · intro i q d h
    rw [exaGo_fst sub true ps, List.get?_map, h]; rfl
  · cases ps with
    | nil => rfl
    | cons p rest =>
      obtain ⟨q, o⟩ := p
      have ih := exaGo_sleeps_count_quarter sub rest
      cases o with
      | ok items =>
        show ((exaGo sub false rest).2.count ((1 : ℚ)/4))
          = (rest.length + 1) - 1
        rw [ih]
        omega
      | error e =>
        show (((if strContains e "429" then [(1 : ℚ)] else [])
                ++ (exaGo sub false rest).2).count ((1 : ℚ)/4))
          = (rest.length + 1) - 1
        rw [List.count_append, ih]
        by_cases h : strContains e "429" = true
        · rw [if_pos h, count_rat_singleton_ne 1 (1/4) (by norm_num)]
          omega
        · rw [if_neg h, List.count_nil]
          omega
  · exact exaGo_sleeps_count_one sub true ps
  · intro q e rest h
    simp [exaGo, h]

theorem exa_failure_isolation_witness :
    (exaGo false true
        [("q1", Except.error "HTTP Error 429: Too Many Requests"),
         ("q2", Except.ok [])]).1.get? 0
      = some { query := "q1", results := [], images := [],
               error := some "HTTP Error 429: Too Many Requests" } :=
  (exa_failure_isolation false
      [("q1", Except.error "HTTP Error 429: Too Many Requests"),
       ("q2", Except.ok [])]).2.1 0 "q1" "HTTP Error 429: Too Many Requests" rfl

/-! ### Claim C6: synthetic score monotonicity -/

theorem arxivResults_score_get? (docs : List ArxivDoc) (g : Bool) (i : Nat)
    (h : i < docs.length) :
    ((arxivResults docs g).map SearchResult.score).get? i
      = some (syntheticScore docs.length i) := by
  have hne : docs.isEmpty = false := by
    cases docs with
    | nil => simp at h
    | cons d rest => rfl
  rw [List.get?_map, arxivResults, scoredMap_get?, List.get?_eq_get h]
  simp [arxivResultOf, scoreDecrementOf, syntheticScore, hne]

theorem pubmedResults_score_get? (docs : List PubmedDoc) (i : Nat)
    (h : i < docs.length) :
    ((pubmedResults docs).map SearchResult.score).get? i
      = some (syntheticScore docs.length i) := by
  have hne : docs.isEmpty = false := by
    cases docs with
    | nil => simp at h
    | cons d rest => rfl
  rw [List.get?_map, pubmedResults, scoredMap_get?, List.get?_eq_get h]
  simp [pubmedResultOf, scoreDecrementOf, syntheticScore, hne]

/-- C6: in the arXiv and PubMed adapters, the result at rank `i` of a
query returning `n` documents scores `1 - i/(n+1)`; hence the first
result scores exactly 1.0, each rank scores exactly `1/(n+1)` lower than
the previous one (so scores are strictly decreasing with rank), and every
assigned score — the last one included — is strictly positive. -/
theorem adapters_score_monotonicity (adocs : List ArxivDoc)
    (pdocs : List PubmedDoc) (g : Bool) :
    (∀ i, i < adocs.length →
      ((arxivResults adocs g).map SearchResult.score).get? i
        = some (syntheticScore adocs.length i))
    ∧ (∀ i, i < pdocs.length →
      ((pubmedResults pdocs).map SearchResult.score).get? i
        = some (syntheticScore pdocs.length i))
    ∧ (∀ n : Nat, syntheticScore n 0 = 1)
    ∧ (∀ n i : Nat, syntheticScore n i - syntheticScore n (i + 1)
        = 1 / ((n : ℚ) + 1))
    ∧ (∀ n i : Nat, syntheticScore n (i + 1) < syntheticScore n i)
    ∧ (∀ n i : Nat, i < n → 0 < syntheticScore n i) := by
  refine ⟨fun i h => arxivResults_score_get? adocs g i h,
          fun i h => pubmedResults_score_get? pdocs i h, ?_, ?_, ?_, ?_⟩
  · intro n; simp [syntheticScore]
  · intro n i
    simp only [syntheticScore]
    push_cast
    ring
  · intro n i
    simp only [syntheticScore]
    have hpos : (0 : ℚ) < 1 / ((n : ℚ) + 1) := by positivity
    push_cast
    nlinarith
  · intro n i h
    simp only [syntheticScore]
    have hn : (0 : ℚ) < (n : ℚ) + 1 := by positivity
    have hi : (i : ℚ) < (n : ℚ) + 1 := by
      exact_mod_cast Nat.lt_succ_of_lt h
    rw [mul_one_div]
    have := (div_lt_one hn).mpr hi
    linarith

theorem adapters_score_monotonicity_witness :
    ((arxivResults [arxivSampleDoc] true).map SearchResult.score).get? 0
      = some (syntheticScore 1 0)
    ∧ syntheticScore 1 0 = 1 :=
  ⟨(adapters_score_monotonicity [arxivSampleDoc] [pubmedSampleDoc] true).1 0
      (by decide),
   (adapters_score_monotonicity [arxivSampleDoc] [pubmedSampleDoc] true).2.2.1 1⟩

/-! ### Claim C4: the adaptive PubMed delay -/

/-- C4 evaluation: starting at 1.0s, three successful non-empty queries
shrink the delay to `max(0.5, 1.0*0.9^3) = 0.729`; but a subsequent query
whose provider call raises (a failure as described by the claim, caught by
the blanket handler inside `process_single_query`) leaves the delay at
0.729 instead of the claimed `min(5.0, 0.729*1.5) = 1.0935`; the
multiply-by-1.5 backoff fires only for an exception that escapes
`process_single_query` itself. -/
theorem pubmed_backoff_unreachable_for_query_failures :
    pubmedDelayAfter
        [("q1", .docs [pubmedSampleDoc]), ("q2", .docs [pubmedSampleDoc]),
         ("q3", .docs [pubmedSampleDoc])] = 729/1000
    ∧ pubmedDelayAfter
        [("q1", .docs [pubmedSampleDoc]), ("q2", .docs [pubmedSampleDoc]),
         ("q3", .docs [pubmedSampleDoc]),
         ("q4", .innerExc "HTTP Error 429: Too Many Requests")] = 729/1000
    ∧ (729/1000 : ℚ) ≠ min 5 ((729/1000) * (3/2))
    ∧ pubmedDelayStep (729/1000) (.outerExc "asyncio.CancelledError")
        = min 5 ((729/1000) * (3/2)) := by
  refine ⟨?_, ?_, ?_, rfl⟩
  · simp [pubmedDelayAfter, pubmedGo, pubmedDelayStep, pubmedResults, scoredMap]
    norm_num [max_def]
  · simp [pubmedDelayAfter, pubmedGo, pubmedDelayStep, pubmedResults, scoredMap]
    norm_num [max_def]
  · norm_num [min_def]

/-! ### Claim C1: deduplication semantics of the formatter -/

theorem insertReplace_url (x t : SearchResult) :
    (if t.url = x.url then x else t).url = t.url := by
  by_cases h : t.url = x.url <;> simp [h]

theorem insertLastWins_pairwise {acc : List SearchResult} (x : SearchResult)
    (h : acc.Pairwise (fun a b => a.url ≠ b.url)) :
    (insertLastWins acc x).Pairwise (fun a b => a.url ≠ b.url) := by
  unfold insertLastWins
  by_cases hm : x.url ∈ acc.map SearchResult.url
  · rw [if_pos hm, List.pairwise_map]
    exact h.imp (fun {a b} hab => by
      rw [insertReplace_url x a, insertReplace_url x b]; exact hab)
  · rw [if_neg hm, List.pairwise_append]
    refine ⟨h, List.pairwise_singleton _ _, ?_⟩
    intro a ha b hb
    have hbx : b = x := by simpa using hb
    subst hbx
    intro heq
    exact hm (List.mem_map.mpr ⟨a, ha, heq⟩)

theorem foldl_insertLastWins_pairwise :
    ∀ (rs acc : List SearchResult),
      acc.Pairwise (fun a b => a.url ≠ b.url) →
      (rs.foldl insertLastWins acc).Pairwise (fun a b => a.url ≠ b.url)
  | [], _, h => h
  | x :: rest, acc, h =>
      foldl_insertLastWins_pairwise rest (insertLastWins acc x)
        (insertLastWins_pairwise x h)

theorem map_const_getLast {α β : Type} (f : α → β) (x : β)
    (l : List α) (hne : l ≠ []) (hall : ∀ a ∈ l, f a = x) :
    (l.map f).getLast? = some x := by
  rcases List.eq_nil_or_concat l with rfl | ⟨l', a, rfl⟩
  · exact absurd rfl hne
  · rw [List.concat_eq_append] at hall ⊢
    rw [List.map_append]
    simp only [List.map_cons, List.map_nil]
    rw [List.getLast?_concat, hall a (by simp)]

theorem filter_insertLastWins (acc : List SearchResult) (x : SearchResult)
    (u : String) :
    ((insertLastWins acc x).filter (fun t => t.url == u)).getLast?
      = ((acc.filter (fun t => t.url == u))
          ++ (if x.url == u then [x] else [])).getLast? := by
  unfold insertLastWins
  by_cases hm : x.url ∈ acc.map SearchResult.url
  · rw [if_pos hm, List.filter_map]
    have hcomp : ((fun t : SearchResult => t.url == u) ∘
        (fun t => if t.url = x.url then x else t))
        = fun t : SearchResult => t.url == u := by
      funext t
      by_cases ht : t.url = x.url <;> simp [Function.comp, ht]
    rw [hcomp]
    by_cases hu : x.url = u
    · have hne : acc.filter (fun t => t.url == u) ≠ [] := by
        obtain ⟨t, ht, hturl⟩ := List.mem_map.mp hm
        intro hnil
        have hno := List.filter_eq_nil_iff.mp hnil t ht
        exact hno (beq_iff_eq.mpr (hturl.trans hu))
      have hall : ∀ t ∈ acc.filter (fun t => t.url == u),
          (fun t => if t.url = x.url then x else t) t = x := by
        intro t ht
        have hp := (List.mem_filter.mp ht).2
        have htu : t.url = x.url := by
          rw [beq_iff_eq] at hp; rw [hp, hu]
        simp [htu]
      rw [map_const_getLast _ x _ hne hall, if_pos (beq_iff_eq.mpr hu),
        List.getLast?_concat]
    · have hid : (acc.filter (fun t => t.url == u)).map
          (fun t => if t.url = x.url then x else t)
          = acc.filter (fun t => t.url == u) := by
        have hpt : ∀ t ∈ acc.filter (fun t => t.url == u),
            (fun t => if t.url = x.url then x else t) t = id t := by
          intro t ht
          have hp := (List.mem_filter.mp ht).2
          have htu : t.url = u := beq_iff_eq.mp hp
          have : ¬ t.url = x.url := by rw [htu]; exact fun hh => hu hh.symm
          simp [this]
        rw [List.map_congr_left hpt, List.map_id]
      rw [hid, if_neg (by simp [hu]), List.append_nil]
  · rw [if_neg hm, List.filter_append]
    congr 1
    by_cases hx : (x.url == u) = true
    · rw [if_pos hx]
      simp [List.filter_cons, hx]
    · rw [if_neg hx]
      simp [List.filter_cons, hx]

theorem foldl_filter_getLast (u : String) :
    ∀ (rs acc : List SearchResult),
      ((rs.foldl insertLastWins acc).filter (fun t => t.url == u)).getLast?
        = ((acc ++ rs).filter (fun t => t.url == u)).getLast?
  | [], acc => by simp
  | x :: rest, acc => by
    have ih := foldl_filter_getLast u rest (insertLastWins acc x)
    show ((rest.foldl insertLastWins (insertLastWins acc x)).filter
        (fun t => t.url == u)).getLast?
      = ((acc ++ x :: rest).filter (fun t => t.url == u)).getLast?
    rw [ih]
    rw [List.filter_append, List.getLast?_append]
    rw [show acc ++ x :: rest = (acc ++ [x]) ++ rest by simp,
      List.filter_append, List.getLast?_append]
    congr 1
    rw [filter_insertLastWins acc x u, List.filter_append]
    have hsing : (if (x.url == u) = true then [x] else ([] : List SearchResult))
        = [x].filter (fun t => t.url == u) := by
      by_cases hx : (x.url == u) = true <;> simp [List.filter_cons, hx]
    rw [hsing]

theorem dedupeByUrl_filter_getLast (sources : List SearchResult) (u : String) :
    ((dedupeByUrl sources).filter (fun t => t.url == u)).getLast?
      = (sources.filter (fun t => t.url == u)).getLast? := by
  simpa [dedupeByUrl] using foldl_filter_getLast u sources []

theorem filter_single_of_pairwise :
    ∀ (l : List SearchResult),
      l.Pairwise (fun a b => a.url ≠ b.url) →
      ∀ s ∈ l, l.filter (fun t => t.url == s.url) = [s]
  | [], _, s, hs => absurd hs (by simp)
  | x :: t, hpw, s, hs => by
    rw [List.pairwise_cons] at hpw
    obtain ⟨hx, ht⟩ := hpw
    rcases List.mem_cons.mp hs with rfl | hst
    · rw [List.filter_cons, if_pos (by simp)]
      have hnil : t.filter (fun r => r.url == s.url) = [] := by
        rw [List.filter_eq_nil_iff]
        intro a ha
        simp only [beq_iff_eq]
        exact fun hh => (hx a ha) hh.symm
      rw [hnil]
    · have hxs : ¬ ((x.url == s.url) = true) := by
        simp only [beq_iff_eq]
        exact hx s hst
      rw [List.filter_cons, if_neg hxs]
      exact filter_single_of_pairwise t ht s hst

theorem insertLastWins_urls (acc : List SearchResult) (x : SearchResult) :
    (insertLastWins acc x).map SearchResult.url
      = if x.url ∈ acc.map SearchResult.url then acc.map SearchResult.url
        else acc.map SearchResult.url ++ [x.url] := by
  unfold insertLastWins
  by_cases hm : x.url ∈ acc.map SearchResult.url
  · rw [if_pos hm, if_pos hm, List.map_map]
    apply List.map_congr_left
    intro a _
    exact insertReplace_url x a
  · rw [if_neg hm, if_neg hm, List.map_append]
    rfl

theorem foldl_insertLastWins_urls :
    ∀ (rs acc : List SearchResult),
      (rs.foldl insertLastWins acc).map SearchResult.url
        = rs.foldl (fun us s => if s.url ∈ us then us else us ++ [s.url])
            (acc.map SearchResult.url)
  | [], _ => rfl
  | x :: rest, acc => by
    show (rest.foldl insertLastWins (insertLastWins acc x)).map SearchResult.url
      = rest.foldl (fun us s => if s.url ∈ us then us else us ++ [s.url])
          (if x.url ∈ acc.map SearchResult.url then acc.map SearchResult.url
           else acc.map SearchResult.url ++ [x.url])
    rw [foldl_insertLastWins_urls rest (insertLastWins acc x),
      insertLastWins_urls]

theorem dedupe_mem_of_mem_url (sources : List SearchResult) (u : String)
    (h : u ∈ sources.map SearchResult.url) :
    ∃ s, s ∈ dedupeByUrl sources ∧ s.url = u := by
  obtain ⟨t, ht, hturl⟩ := List.mem_map.mp h
  have hne : sources.filter (fun r => r.url == u) ≠ [] := by
    intro hnil
    exact (List.filter_eq_nil_iff.mp hnil t ht) (beq_iff_eq.mpr hturl)
  obtain ⟨s, hs⟩ : ∃ s, (sources.filter (fun r => r.url == u)).getLast? = some s := by
    cases hfl : sources.filter (fun r => r.url == u) with
    | nil => exact absurd hfl hne
    | cons a l =>
      exact ⟨(a :: l).getLast (by simp), List.getLast?_eq_getLast _ (by simp)⟩
  have hkey := dedupeByUrl_filter_getLast sources u
  rw [hs] at hkey
  have hmem : s ∈ (dedupeByUrl sources).filter (fun r => r.url == u) := by
    rw [List.getLast?_eq_some_iff] at hkey
    obtain ⟨l', hl'⟩ := hkey
    rw [hl']; simp
  have hsp := List.mem_filter.mp hmem
  exact ⟨s, hsp.1, beq_iff_eq.mp hsp.2⟩

/-- C1 counterexample: two entries share one URL but differ in content;
the formatter emits exactly one block for that URL, but it is the
last-encountered entry (`c1SourceB`), not the first-encountered one
(`c1SourceA`) — a Python dict comprehension overwrites the value of a
repeated key. -/
theorem formatter_first_write_counterexample :
    c1SourceA.url = c1SourceB.url
    ∧ c1SourceA.content ≠ c1SourceB.content
    ∧ dedupeByUrl [c1SourceA, c1SourceB] = [c1SourceB]
    ∧ deduplicate_and_format_sources
        [{ query := "q", results := [c1SourceA, c1SourceB], images := [],
           error := none }] 5 true
      = ("Sources:\n\n" ++ formatSource 5 true c1SourceB).trim
    ∧ formatSource 5 true c1SourceB ≠ formatSource 5 true c1SourceA := by
  refine ⟨rfl, by decide, by decide, rfl, by decide⟩

/-- C1 (amended): the formatter output has exactly one block per distinct
URL (the deduplicated list is pairwise URL-distinct and covers every URL
of the merged results), each block sits at its URL's first-occurrence
position in iteration order, and the surviving entry for a URL is the
**last**-encountered entry with that URL — later duplicates silently
overwrite earlier ones, even if their content differs. -/
theorem formatter_dedupe_last_write_wins (responses : List QueryResponse)
    (m : Nat) (b : Bool) :
    deduplicate_and_format_sources responses m b
      = ("Sources:\n\n" ++
          String.join ((dedupeByUrl (flattenSources responses)).map
            (formatSource m b))).trim
    ∧ (dedupeByUrl (flattenSources responses)).Pairwise
        (fun a c => a.url ≠ c.url)
    ∧ (∀ s, s ∈ dedupeByUrl (flattenSources responses) →
        ((flattenSources responses).filter
            (fun t => t.url == s.url)).getLast? = some s)
    ∧ ((dedupeByUrl (flattenSources responses)).map SearchResult.url
        = (flattenSources responses).foldl
            (fun us s => if s.url ∈ us then us else us ++ [s.url]) [])
    ∧ (∀ u, u ∈ (flattenSources responses).map SearchResult.url →
        ∃ s, s ∈ dedupeByUrl (flattenSources responses) ∧ s.url = u) := by
  refine ⟨rfl, foldl_insertLastWins_pairwise _ [] List.Pairwise.nil, ?_, ?_,
    fun u hu => dedupe_mem_of_mem_url _ u hu⟩
  · intro s hs
    have h1 := dedupeByUrl_filter_getLast (flattenSources responses) s.url
    have h2 : (dedupeByUrl (flattenSources responses)).filter
        (fun t => t.url == s.url) = [s] :=
      filter_single_of_pairwise _
        (foldl_insertLastWins_pairwise _ [] List.Pairwise.nil) s hs
    rw [h2] at h1
    simpa using h1.symm
  · simpa using foldl_insertLastWins_urls (flattenSources responses) []

theorem formatter_dedupe_last_write_wins_witness :
    (([c1SourceA, c1SourceB] : List SearchResult).filter
        (fun t => t.url == c1SourceB.url)).getLast? = some c1SourceB :=
  (formatter_dedupe_last_write_wins
      [{ query := "q", results := [c1SourceA, c1SourceB], images := [],
         error := none }] 5 true).2.2.1 c1SourceB (by decide)
